import Mathlib

/- Verification development for the pipelinewise-target-vertica core
   (target_vertica/utils.py and target_vertica/db_sync.py).

   Modelling conventions:
   * Python strings are Lean strings; the string primitives the code relies on
     (join, lower, slice, split, replace, substring membership) are implemented
     over List Char so every definition reduces in the kernel.
   * Python dicts are association lists in insertion order; indexing a dict
     built with possibly duplicated keys takes the last binding, as dict() does.
   * JSON values appearing inside schemas are the inductive JVal; values inside
     records are the inductive PyVal.
   * Python exceptions are modelled with Except String; the exact exception
     class is abbreviated in the message text. -/

/-- Python sep.join(parts). -/
def pyJoin (sep : String) : List String → String
  | [] => ""
  | [x] => x
  | x :: y :: rest => x ++ sep ++ pyJoin sep (y :: rest)

/-- Python str.lower for the ASCII identifiers this target manipulates. -/
def lowerStr (s : String) : String := String.mk (s.data.map Char.toLower)

/-- Python slice s[0:n]. -/
def takeStr (s : String) (n : Nat) : String := String.mk (s.data.take n)

/-- Python s.replace(old, new) for a single-character pattern and replacement. -/
def mapChar (old new : Char) (s : String) : String :=
  String.mk (s.data.map (fun c => if c = old then new else c))

/-- Python s.replace(old, '') for a single-character pattern: drops every occurrence. -/
def dropChar (old : Char) (s : String) : String :=
  String.mk (s.data.filter (fun c => !(c == old)))

/-- Splitter for Python s.split(sep) with nonempty separator sepc. skip counts
separator characters still to consume after a match, so that the recursion is
structural on the input characters. -/
def splitGo (sepc : List Char) : Nat → List Char → List Char → List (List Char)
  | _ + 1, cur, [] => [cur.reverse]
  | skip + 1, cur, _ :: rest => splitGo sepc skip cur rest
  | 0, cur, [] => [cur.reverse]
  | 0, cur, c :: rest =>
    if sepc.isPrefixOf (c :: rest) then cur.reverse :: splitGo sepc (sepc.length - 1) [] rest
    else splitGo sepc 0 (c :: cur) rest

/-- Python s.split(sep). The empty separator (a ValueError in Python) is unused here. -/
def pySplit (str sep : String) : List String :=
  match sep.data with
  | [] => [str]
  | s :: ss => (splitGo (s :: ss) 0 [] str.data).map (fun l => String.mk l)

/-- Substring occurrence test over character lists. -/
def isSubstr (needle : List Char) : List Char → Bool
  | [] => needle.isEmpty
  | c :: t => needle.isPrefixOf (c :: t) || isSubstr needle t

/-- Python sub in hay for strings. -/
def strContains (hay sub : String) : Bool := isSubstr sub.data hay.data

/-- A single-quote character, for Python repr output. -/
def squote : String := String.mk [Char.ofNat 39]

/-- Code-point lexicographic comparison of character lists, as Python string <=. -/
def lexLe : List Char → List Char → Bool
  | [], _ => true
  | _ :: _, [] => false
  | a :: as, b :: bs =>
    if a.toNat < b.toNat then true
    else if b.toNat < a.toNat then false
    else lexLe as bs

/-- JSON values as they appear inside stream schemas. -/
inductive JVal where
  | null
  | bool (b : Bool)
  | int (n : Int)
  | str (s : String)
  | arr (xs : List JVal)
  | obj (kvs : List (String × JVal))

/-- Lookup in an association-list object (dict access d[key]). -/
def jLookup (key : String) : List (String × JVal) → Option JVal
  | [] => Option.none
  | (k, v) :: rest => if k = key then Option.some v else jLookup key rest

/-- Python equality test value == s between a JSON value and a string literal. -/
def jvalEqStr (v : JVal) (s : String) : Bool :=
  match v with
  | .str t => t == s
  | _ => false

/-- Python s in v for a JSON value v: substring test on strings, membership on
lists, key membership on dicts, TypeError otherwise. -/
def pyIn (s : String) (v : JVal) : Except String Bool :=
  match v with
  | .str t => .ok (strContains t s)
  | .arr xs => .ok (xs.any (fun x => jvalEqStr x s))
  | .obj kvs => .ok (kvs.any (fun kv => kv.1 == s))
  | _ => .error "TypeError: argument of type is not iterable"

/-- Python d[key] = v on a dict where the key may already be bound: replaces the
first binding in place, appending when absent. -/
def setKey (key : String) (nv : JVal) : List (String × JVal) → List (String × JVal)
  | [] => [(key, nv)]
  | (k, v) :: rest => if k = key then (k, nv) :: rest else (k, v) :: setKey key nv rest

/-- Worker for inflection.camelize: each underscore-letter pair becomes the
letter uppercased, as in re.sub applied from the second character on. -/
def camelizeGo : List Char → List Char
  | [] => []
  | c :: rest =>
    if c = '_' then
      match rest with
      | [] => ['_']
      | d :: rest2 => d.toUpper :: camelizeGo rest2
    else c :: camelizeGo rest

/-- The inflection.camelize function used by flatten_key (utils.py line 166):
uppercases the first character and every character following an underscore,
consuming that underscore. -/
def camelize (s : String) : String :=
  match s.data with
  | [] => ""
  | c :: rest => String.mk (c.toUpper :: camelizeGo rest)

/-- The re.sub of pattern [a-z] with the empty string (utils.py line 165). -/
def stripLowerAZ (s : String) : String :=
  String.mk (s.data.filter (fun c => !decide (97 ≤ c.toNat ∧ c.toNat ≤ 122)))

/-- One reduction step of flatten_key (utils.py lines 165-169): strip lowercase
letters from the camelized segment; keep that when longer than one character,
otherwise fall back to the first three characters of the original; lowercase
the chosen string. -/
def reduceSegment (s : String) : String :=
  let reduced := stripLowerAZ (camelize s)
  lowerStr (if 1 < reduced.length then reduced else takeStr s 3)

/-- The while loop of flatten_key (utils.py lines 163-170): done holds the
already-reduced prefix, todo the segments not yet visited. -/
def reduceLoop (sep : String) : List String → List String → List String
  | done, [] => done
  | done, k :: rest =>
    if 63 ≤ (pyJoin sep (done ++ k :: rest)).length then
      reduceLoop sep (done ++ [reduceSegment k]) rest
    else done ++ k :: rest

/-- flatten_key from utils.py lines 160-172. -/
def flatten_key (k : String) (parent_key : List String) (sep : String) : String :=
  pyJoin sep (reduceLoop sep [] (parent_key ++ [k]))

/-- Final formatting step of column_type (utils.py lines 140-142): append the
varchar length when requested. -/
def columnTypeFinish (with_length : Bool) (col_type : String) (varchar_length : Int) :
    Except String String :=
  if with_length ∧ col_type = "varchar" ∧ 0 < varchar_length then
    .ok ("varchar(" ++ toString varchar_length ++ ")")
  else .ok col_type

/-- Short-circuiting Python or over the two membership tests of utils.py line 110. -/
def pyOr (a : Except String Bool) (b : Unit → Except String Bool) : Except String Bool :=
  match a with
  | .error e => .error e
  | .ok true => .ok true
  | .ok false => b ()

/-- column_type from utils.py lines 97-147: maps a leaf JSON schema to a Vertica
column type string. In the long-varchar branch Python stores the string
'1048576' in varchar_length; that value is never read again because col_type is
no longer 'varchar', so the model leaves varchar_length unchanged there. -/
def column_type (sp : JVal) (with_length : Bool) : Except String String :=
  match sp with
  | .obj kvs =>
    (match jLookup "type" kvs with
     | Option.none => .error "KeyError: type"
     | Option.some property_type =>
       match (match jLookup "maxLength" kvs with
              | Option.none => Except.ok (0 : Int)
              | Option.some (.int n) => Except.ok n
              | Option.some _ => Except.error "TypeError: maxLength") with
       | .error e => .error e
       | .ok maxLen =>
         let varchar_length : Int := if 80 < maxLen then 65000 else 80
         match pyOr (pyIn "object" property_type) (fun _ => pyIn "array" property_type) with
         | .error e => .error e
         | .ok true =>
           if 65000 < maxLen then columnTypeFinish with_length "long varchar" varchar_length
           else columnTypeFinish with_length "varchar" 65000
         | .ok false =>
           if (match jLookup "format" kvs with
               | Option.some f => jvalEqStr f "date-time"
               | Option.none => false) then
             columnTypeFinish with_length "timestamp" varchar_length
           else if (match jLookup "format" kvs with
                    | Option.some f => jvalEqStr f "time"
                    | Option.none => false) then
             columnTypeFinish with_length "time" varchar_length
           else
             match pyIn "number" property_type with
             | .error e => .error e
             | .ok true => columnTypeFinish with_length "numeric" varchar_length
             | .ok false =>
               match pyIn "integer" property_type with
               | .error e => .error e
               | .ok true =>
                 (match pyIn "string" property_type with
                  | .error e => .error e
                  | .ok true => columnTypeFinish with_length "varchar" varchar_length
                  | .ok false =>
                    match jLookup "maximum" kvs with
                    | Option.some (.int m) =>
                      if m ≤ 32767 then columnTypeFinish with_length "smallint" varchar_length
                      else if m ≤ 2147483647 then columnTypeFinish with_length "int" varchar_length
                      else if m ≤ 9223372036854775807 then
                        columnTypeFinish with_length "bigint" varchar_length
                      else columnTypeFinish with_length "varchar" varchar_length
                    | Option.some _ => .error "TypeError: maximum"
                    | Option.none => columnTypeFinish with_length "int" varchar_length)
               | .ok false =>
                 match pyIn "boolean" property_type with
                 | .error e => .error e
                 | .ok true => columnTypeFinish with_length "boolean" varchar_length
                 | .ok false => columnTypeFinish with_length "varchar" varchar_length)
  | _ => .error "TypeError: not subscriptable"

/-- safe_column_name from utils.py lines 150-152. -/
def safe_column_name (name : String) : String := lowerStr ("\"" ++ name ++ "\"")

/-- column_clause from utils.py lines 155-157. -/
def column_clause (name : String) (sch : JVal) : Except String String :=
  match column_type sch true with
  | .error e => .error e
  | .ok ct => .ok (safe_column_name name ++ " " ++ ct)

/-- primary_column_names from utils.py lines 240-242. -/
def primary_column_names (key_properties : List String) : List String :=
  key_properties.map safe_column_name

/-- Comparison used to sort flattened items by flat column name, as
sorted(items, key=item[0]) in utils.py line 205. -/
def keyLe (a b : String × JVal) : Bool := lexLe a.1.data b.1.data

/-- Stable insertion into a key-sorted item list. -/
def insertSorted (x : String × JVal) : List (String × JVal) → List (String × JVal)
  | [] => [x]
  | y :: ys => if keyLe x y then x :: y :: ys else y :: insertSorted x ys

/-- Stable sort of the flattened items by flat column name. Python uses a stable
sort as well, so the outputs agree. -/
def sortItems : List (String × JVal) → List (String × JVal)
  | [] => []
  | x :: xs => insertSorted x (sortItems xs)

/-- First flat name occurring twice in a row, as the itertools.groupby scan of
utils.py lines 206-209 finds on the sorted item list. -/
def findDup : List (String × JVal) → Option String
  | a :: b :: t => if a.1 = b.1 then Option.some a.1 else findDup (b :: t)
  | _ => Option.none

/-- Sort the gathered items and raise on a duplicated flat column name
(utils.py lines 202-211). -/
def sortAndCheck (items : List (String × JVal)) : Except String (List (String × JVal)) :=
  match findDup (sortItems items) with
  | Option.some k => .error ("Duplicate column name produced in schema: " ++ k)
  | Option.none => .ok (sortItems items)

/-- The property loop of flatten_schema (utils.py lines 182-200), one fuel
level at a time: canRecurse is the level < max_level test and recurse is the
flatten of a nested object at the next level, whose sort-and-check step
(the recursive flatten_schema call) follows as sortAndCheck. -/
def gatherStep (sep : String) (canRecurse : Bool)
    (recurse : List (String × JVal) → List String → Except String (List (String × JVal))) :
    List (String × JVal) → List String → Except String (List (String × JVal))
  | [], _ => .ok []
  | (k, v) :: rest, parent =>
    let new_key := flatten_key k parent sep
    let hd : Except String (List (String × JVal)) :=
      match v with
      | .obj vkvs =>
        (match jLookup "type" vkvs with
         | Option.some tv =>
           (match pyIn "object" tv with
            | .error e => .error e
            | .ok objIn =>
              if objIn then
                match jLookup "properties" vkvs with
                | Option.some pv =>
                  (if canRecurse then
                     (match pv with
                      | .obj innerProps =>
                        (match recurse innerProps (parent ++ [k]) with
                         | .error e => .error e
                         | .ok inner => sortAndCheck inner)
                      | _ => .error "AttributeError: items")
                   else .ok [(new_key, v)])
                | Option.none => .ok [(new_key, v)]
              else .ok [(new_key, v)])
         | Option.none =>
           match (vkvs.map Prod.snd).head? with
           | Option.none => .ok []
           | Option.some (.arr (alt0 :: _)) =>
             (match alt0 with
              | .obj akvs =>
                (match jLookup "type" akvs with
                 | Option.some tv0 =>
                   if jvalEqStr tv0 "string" then
                     .ok [(new_key, .obj (setKey "type" (.arr [.null, .str "string"]) akvs))]
                   else if jvalEqStr tv0 "array" then
                     .ok [(new_key, .obj (setKey "type" (.arr [.null, .str "array"]) akvs))]
                   else if jvalEqStr tv0 "object" then
                     .ok [(new_key, .obj (setKey "type" (.arr [.null, .str "object"]) akvs))]
                   else .ok []
                 | Option.none => .error "KeyError: type")
              | _ => .error "TypeError: not subscriptable")
           | Option.some (.arr []) => .error "IndexError: list index out of range"
           | Option.some _ => .error "TypeError: not subscriptable")
      | _ => .error "AttributeError: keys"
    match hd with
    | .error e => .error e
    | .ok hdItems =>
      match gatherStep sep canRecurse recurse rest parent with
      | .error e => .error e
      | .ok tlItems => .ok (hdItems ++ tlItems)

/-- The property loop of flatten_schema (utils.py lines 182-200). fuel is
max_level - level, so fuel = 0 exactly when level < max_level fails; a nested
object at positive fuel recurses with one fuel level fewer. -/
def gather (sep : String) : Nat → List (String × JVal) → List String →
    Except String (List (String × JVal))
  | 0 => gatherStep sep false (fun _ _ => .ok [])
  | f + 1 => gatherStep sep true (gather sep f)

/-- flatten_schema from utils.py lines 176-211, at its top-level entry point
(parent_key = [], level = 0); maxLevel is the max_level argument. -/
def flatten_schema (sep : String) (maxLevel : Nat) (d : JVal) :
    Except String (List (String × JVal)) :=
  match pyIn "properties" d with
  | .error e => .error e
  | .ok false => .ok []
  | .ok true =>
    match d with
    | .obj kvs =>
      (match jLookup "properties" kvs with
       | Option.some (.obj props) =>
         (match gather sep maxLevel props [] with
          | .error e => .error e
          | .ok items => sortAndCheck items)
       | Option.some _ => .error "AttributeError: items"
       | Option.none => .error "KeyError: properties")
    | _ => .error "TypeError: not subscriptable"

/-- Python values appearing inside records. Floats are outside the model; the
records the claims exercise hold ints, bools, strings, null and composites. -/
inductive PyVal where
  | none
  | bool (b : Bool)
  | int (n : Int)
  | str (s : String)
  | list (xs : List PyVal)
  | dict (kvs : List (String × PyVal))

/-- Hexadecimal digit, lowercase, as the json module emits in unicode escapes. -/
def hexDigit (n : Nat) : Char :=
  if n < 10 then Char.ofNat (48 + n) else Char.ofNat (87 + n)

/-- Four-digit lowercase hexadecimal rendering of a code unit. -/
def hex4 (n : Nat) : String :=
  String.mk [hexDigit (n / 4096 % 16), hexDigit (n / 256 % 16), hexDigit (n / 16 % 16),
    hexDigit (n % 16)]

/-- The json module's unicode escape for a code point, with surrogate pairs
above the basic multilingual plane. -/
def uEscape (n : Nat) : String :=
  if n < 65536 then "\\u" ++ hex4 n
  else "\\u" ++ hex4 (55296 + (n - 65536) / 1024) ++ "\\u" ++ hex4 (56320 + (n - 65536) % 1024)

/-- Escape of one character inside a JSON string literal; ea is ensure_ascii. -/
def jsonEscapeChar (ea : Bool) (c : Char) : String :=
  if c = '"' then "\\\""
  else if c = '\\' then "\\\\"
  else if c = '\n' then "\\n"
  else if c = '\t' then "\\t"
  else if c = '\r' then "\\r"
  else if c.toNat = 8 then "\\b"
  else if c.toNat = 12 then "\\f"
  else if c.toNat < 32 then "\\u" ++ hex4 c.toNat
  else if ea ∧ 126 < c.toNat then uEscape c.toNat
  else String.mk [c]

/-- JSON string literal with escapes, as json.dumps renders a str. -/
def jsonQuote (ea : Bool) (s : String) : String :=
  "\"" ++ String.join (s.data.map (jsonEscapeChar ea)) ++ "\""

/- json.dumps with default separators; ea is the ensure_ascii flag
(True inside flatten_record, False inside record_to_csv_line). -/
mutual
/-- Rendering of one Python value by json.dumps. -/
def jsonDumps (ea : Bool) : PyVal → String
  | .none => "null"
  | .bool true => "true"
  | .bool false => "false"
  | .int n => toString n
  | .str s => jsonQuote ea s
  | .list xs => "[" ++ pyJoin ", " (jsonDumpsList ea xs) ++ "]"
  | .dict kvs => "\x7b" ++ pyJoin ", " (jsonDumpsObj ea kvs) ++ "\x7d"

def jsonDumpsList (ea : Bool) : List PyVal → List String
  | [] => []
  | v :: vs => jsonDumps ea v :: jsonDumpsList ea vs

def jsonDumpsObj (ea : Bool) : List (String × PyVal) → List String
  | [] => []
  | kv :: kvs => (jsonQuote ea kv.1 ++ ": " ++ jsonDumps ea kv.2) :: jsonDumpsObj ea kvs
end

/- Python repr, for the str() rendering of primary-key values; string escaping
is modelled for quote-free ASCII content, which is all the claims exercise. -/
mutual
/-- Rendering of one Python value by repr. -/
def pyRepr : PyVal → String
  | .none => "None"
  | .bool true => "True"
  | .bool false => "False"
  | .int n => toString n
  | .str s => squote ++ s ++ squote
  | .list xs => "[" ++ pyJoin ", " (pyReprList xs) ++ "]"
  | .dict kvs => "\x7b" ++ pyJoin ", " (pyReprObj kvs) ++ "\x7d"

def pyReprList : List PyVal → List String
  | [] => []
  | v :: vs => pyRepr v :: pyReprList vs

def pyReprObj : List (String × PyVal) → List String
  | [] => []
  | kv :: kvs => (squote ++ kv.1 ++ squote ++ ": " ++ pyRepr kv.2) :: pyReprObj kvs
end

/-- Python str() of a value: identity on strings, repr otherwise. -/
def pyStr : PyVal → String
  | .str s => s
  | v => pyRepr v

/-- Set equality test set(xs) == set of null, object, array from utils.py
line 220; building a set raises on unhashable (list or dict) members. -/
def setIsNullObjectArray (xs : List JVal) : Except String Bool :=
  if xs.any (fun x => match x with | .arr _ => true | .obj _ => true | _ => false) then
    .error "TypeError: unhashable type"
  else
    .ok ((xs.all (fun x => jvalEqStr x "null" || jvalEqStr x "object" || jvalEqStr x "array"))
      && xs.any (fun x => jvalEqStr x "null")
      && xs.any (fun x => jvalEqStr x "object")
      && xs.any (fun x => jvalEqStr x "array"))

/-- The private helper of utils.py lines 215-223: composites always JSON-encode;
a scalar JSON-encodes when its leaf schema's type set is exactly the nullable
object-or-array union. -/
def should_json_dump_value (key : String) (value : PyVal)
    (fs : Option (List (String × JVal))) : Except String Bool :=
  match value with
  | .dict _ => .ok true
  | .list _ => .ok true
  | _ =>
    match fs with
    | Option.none => .ok false
    | Option.some l =>
      if l.isEmpty then .ok false
      else
        match jLookup key l with
        | Option.none => .ok false
        | Option.some sch =>
          match sch with
          | .obj skvs =>
            (match jLookup "type" skvs with
             | Option.none => .ok false
             | Option.some (.arr xs) => setIsNullObjectArray xs
             | Option.some (.str _) => .ok false
             | Option.some _ => .error "TypeError: argument of type is not iterable")
          | .str t =>
            if strContains t "type" then .error "TypeError: string indices" else .ok false
          | .arr xs =>
            if xs.any (fun x => jvalEqStr x "type") then .error "TypeError: list indices"
            else .ok false
          | _ => .error "TypeError: argument of type is not iterable"

/-- flatten_record from utils.py lines 227-237, one fuel level at a time:
canRecurse is the level < max_level test and recurse flattens a nested mapping
at the next level. -/
def flattenRecordStep (fs : Option (List (String × JVal))) (sep : String) (canRecurse : Bool)
    (recurse : List (String × PyVal) → List String → Except String (List (String × PyVal))) :
    List (String × PyVal) → List String → Except String (List (String × PyVal))
  | [], _ => .ok []
  | (k, v) :: rest, parent =>
    match v with
    | PyVal.dict inner =>
      if canRecurse then
        (match recurse inner (parent ++ [k]) with
         | .error e => .error e
         | .ok hd =>
           match flattenRecordStep fs sep canRecurse recurse rest parent with
           | .error e => .error e
           | .ok tl => .ok (hd ++ tl))
      else
        (match should_json_dump_value k v fs with
         | .error e => .error e
         | .ok sjd =>
           match flattenRecordStep fs sep canRecurse recurse rest parent with
           | .error e => .error e
           | .ok tl =>
             .ok ((flatten_key k parent sep,
                   if sjd then PyVal.str (jsonDumps true v) else v) :: tl))
    | _ =>
      (match should_json_dump_value k v fs with
       | .error e => .error e
       | .ok sjd =>
         match flattenRecordStep fs sep canRecurse recurse rest parent with
         | .error e => .error e
         | .ok tl =>
           .ok ((flatten_key k parent sep,
                 if sjd then PyVal.str (jsonDumps true v) else v) :: tl))

/-- flatten_record from utils.py lines 227-237. fuel is max_level - level, so a
nested mapping is spliced in exactly when fuel is positive; dict(items) keeps
the last binding of a duplicated key, which plookup below mirrors. -/
def flatten_record (fs : Option (List (String × JVal))) (sep : String) :
    Nat → List (String × PyVal) → List String → Except String (List (String × PyVal))
  | 0 => flattenRecordStep fs sep false (fun _ _ => .ok [])
  | f + 1 => flattenRecordStep fs sep true (flatten_record fs sep f)

/-- Last-binding lookup in a flattened record, as dict(items)[key]. -/
def plookupGo (key : String) : List (String × PyVal) → Option PyVal
  | [] => Option.none
  | (k, v) :: rest => if k = key then Option.some v else plookupGo key rest

/-- Dict membership and access for flattened records: dict(items) keeps the last
binding of each key. -/
def plookup (key : String) (l : List (String × PyVal)) : Option PyVal :=
  plookupGo key l.reverse

/-- Python truthiness of a record value. -/
def pyTruthy : PyVal → Bool
  | .none => false
  | .bool b => b
  | .int n => !(n == 0)
  | .str s => !(s == "")
  | .list xs => !xs.isEmpty
  | .dict kvs => !kvs.isEmpty

/-- Python value == 0, which is also true of False. -/
def pyEqZero : PyVal → Bool
  | .int n => (n == 0)
  | .bool b => !b
  | _ => false

/-- One field of the bulk-load line (db_sync.py lines 197-203): the JSON dump of
the value when the column is present and equal to zero or truthy, else empty. -/
def renderField (flat : List (String × PyVal)) (name : String) : String :=
  match plookup name flat with
  | Option.none => ""
  | Option.some v => if pyEqZero v || pyTruthy v then jsonDumps false v else ""

/-- record_to_csv_line from db_sync.py lines 194-203: flatten the record, then
render one comma-separated field per flattened-schema column, in schema order. -/
def record_to_csv_line (fs : List (String × JVal)) (sep : String) (maxLevel : Nat)
    (record : List (String × PyVal)) : Except String String :=
  match flatten_record (Option.some fs) sep maxLevel record [] with
  | .error e => .error e
  | .ok flat => .ok (pyJoin "," ((fs.map Prod.fst).map (fun name => renderField flat name)))

/-- The primary-key list comprehension of db_sync.py line 186: str(flatten[p])
for each configured key property, raising KeyError at the first missing one. -/
def getKeyVals (flat : List (String × PyVal)) : List String → Except String (List String)
  | [] => .ok []
  | p :: ps =>
    match plookup p flat with
    | Option.some v =>
      (match getKeyVals flat ps with
       | .error e => .error e
       | .ok tl => .ok (pyStr v :: tl))
    | Option.none => .error ("KeyError: " ++ p)

/-- record_primary_key_string from db_sync.py lines 179-192: None when no key
properties are configured, else the comma join of the stringified key values;
a missing key property raises, and the exception is re-raised to the caller. -/
def record_primary_key_string (key_properties : List String) (fs : List (String × JVal))
    (sep : String) (maxLevel : Nat) (record : List (String × PyVal)) :
    Except String (Option String) :=
  if key_properties.length = 0 then .ok Option.none
  else
    match flatten_record (Option.some fs) sep maxLevel record [] with
    | .error e => .error e
    | .ok flat =>
      match getKeyVals flat key_properties with
      | .error e => .error e
      | .ok vals => .ok (Option.some (pyJoin "," vals))

/-- Result shape of stream_name_to_dict (utils.py lines 245-265). -/
structure StreamDict where
  catalog_name : Option String
  schema_name : Option String
  table_name : String
deriving DecidableEq

/-- stream_name_to_dict from utils.py lines 245-265. -/
def stream_name_to_dict (stream_name : String) (separator : String) : StreamDict :=
  let s := pySplit stream_name separator
  match s with
  | [a, b] => ⟨Option.none, Option.some a, b⟩
  | a :: b :: c :: rest => ⟨Option.some a, Option.some b, pyJoin "_" (c :: rest)⟩
  | _ => ⟨Option.none, Option.none, stream_name⟩

/-- table_name from db_sync.py lines 165-177; uuid stands for the str(uuid4())
drawn for a temporary name. -/
def table_name (schema_name stream uuid : String) (is_temporary without_schema : Bool) :
    String :=
  let sd := stream_name_to_dict stream "-"
  let v_table_name := lowerStr (mapChar '-' '_' (mapChar '.' '_' sd.table_name))
  if is_temporary then "tmp_" ++ mapChar '-' '_' uuid
  else if without_schema then "\"" ++ lowerStr v_table_name ++ "\""
  else schema_name ++ ".\"" ++ lowerStr v_table_name ++ "\""

/-- column_clause applied across the flattened schema, as the list comprehension
of create_table_query (db_sync.py lines 302-308). -/
def columnClauses : List (String × JVal) → Except String (List String)
  | [] => .ok []
  | (n, sch) :: rest =>
    match column_clause n sch with
    | .error e => .error e
    | .ok c =>
      match columnClauses rest with
      | .error e => .error e
      | .ok tl => .ok (c :: tl)

/-- create_table_query from db_sync.py lines 299-322, with the table name
supplied by the caller as load_csv and sync_table do. The primary-key clause is
appended whenever key properties are configured, for temporary and permanent
tables alike. -/
def create_table_query (fs : List (String × JVal)) (key_properties : List String)
    (tname : String) (is_temporary is_flex : Bool) : Except String String :=
  match columnClauses fs with
  | .error e => .error e
  | .ok columns =>
    let primary_key : List String :=
      if 0 < key_properties.length then
        ["PRIMARY KEY (" ++ pyJoin ", " (primary_column_names key_properties) ++ ")"]
      else []
    .ok ("CREATE " ++ (if is_flex then "FLEX " else "")
      ++ (if is_temporary then "TEMPORARY " else "")
      ++ "TABLE IF NOT EXISTS " ++ tname
      ++ " (" ++ pyJoin ", " (columns ++ primary_key) ++ ")"
      ++ (if is_temporary then " ON COMMIT PRESERVE ROWS" else ""))

/-- primary_key_condition from db_sync.py lines 280-285. -/
def primary_key_condition (right_table : String) (key_properties : List String) : String :=
  pyJoin " AND " ((primary_column_names key_properties).map
    (fun c => "s." ++ c ++ " = " ++ right_table ++ "." ++ c))

/-- primary_key_null_condition from db_sync.py lines 287-291. -/
def primary_key_null_condition (right_table : String) (key_properties : List String) : String :=
  pyJoin " AND " ((primary_column_names key_properties).map
    (fun c => right_table ++ "." ++ c ++ " is null"))

/-- insert_from_temp_table from db_sync.py lines 244-265: a straight
INSERT-SELECT when no key properties are configured, else the anti-join insert. -/
def insert_from_temp_table (key_properties : List String) (columns : List String)
    (table temp_table : String) : String :=
  if key_properties.length = 0 then
    "INSERT INTO " ++ table ++ " (" ++ pyJoin ", " columns ++ ") (SELECT s.* FROM "
      ++ temp_table ++ " s)\n                    "
  else
    "INSERT INTO " ++ table ++ " (" ++ pyJoin ", " columns ++ ")\n                    "
      ++ "(SELECT s.* FROM " ++ temp_table ++ " s LEFT OUTER JOIN " ++ table ++ " t ON "
      ++ primary_key_condition "t" key_properties ++ " WHERE "
      ++ primary_key_null_condition "t" key_properties ++ ")\n                "

/-- Row counts reported by a load (db_sync.py line 240). -/
structure LoadCounts where
  inserted : Nat
  updated : Nat
  size_bytes : Nat
deriving DecidableEq

/-- Relational semantics of the load_csv orchestration (db_sync.py lines
205-241) over an abstract row type: the COPY stages the batch into a fresh
staging table; with key properties configured, the UPDATE touches every
permanent row whose primary key occurs in the staging table and the INSERT adds
the staged rows whose primary key has no permanent match; with none, the
INSERT-SELECT appends every staged row. pk extracts a row's primary-key
value. Returns the reported counts and the permanent table contents. -/
def load_csv_run {α : Type} (key_properties : List String) (pk : α → String)
    (records perm : List α) (size_bytes : Nat) : LoadCounts × List α :=
  let temp := records
  if 0 < key_properties.length then
    let updated := (perm.filter (fun t => temp.any (fun s => pk s == pk t))).length
    let inserted_rows := temp.filter (fun s => !(perm.any (fun t => pk t == pk s)))
    (⟨inserted_rows.length, updated, size_bytes⟩, perm ++ inserted_rows)
  else
    (⟨temp.length, 0, size_bytes⟩, perm ++ temp)

/-- DDL actions issued by update_columns (db_sync.py lines 424-476). -/
inductive DdlAction where
  | add (clause : String)
  | rename (oldName newName : String)
  | drop (name : String)
deriving DecidableEq

/-- Last-binding lookup of a column's reported data type in the dict
comprehension of db_sync.py line 431, keyed by lowercased column name. -/
def catLookupGo (key : String) : List (String × String) → Option String
  | [] => Option.none
  | (n, t) :: rest => if lowerStr n = key then Option.some t else catLookupGo key rest

/-- columns_dict access: catalog entries keyed by lowercased name, later
entries overwriting earlier ones. -/
def catLookup (catalog : List (String × String)) (key : String) : Option String :=
  catLookupGo key catalog.reverse

/-- The columns_to_add comprehension of db_sync.py lines 435-439. -/
def colsToAdd (catalog : List (String × String)) :
    List (String × JVal) → Except String (List String)
  | [] => .ok []
  | (n, sch) :: rest =>
    match catLookup catalog (lowerStr n) with
    | Option.some _ => colsToAdd catalog rest
    | Option.none =>
      match column_clause n sch with
      | .error e => .error e
      | .ok c =>
        match colsToAdd catalog rest with
        | .error e => .error e
        | .ok tl => .ok (c :: tl)

/-- The columns_to_replace comprehension of db_sync.py lines 444-450: columns
present in the catalog whose reported type differs case-insensitively from the
freshly computed one, paired as (quoted name, new column clause). -/
def colsToReplace (catalog : List (String × String)) :
    List (String × JVal) → Except String (List (String × String))
  | [] => .ok []
  | (n, sch) :: rest =>
    match catLookup catalog (lowerStr n) with
    | Option.none => colsToReplace catalog rest
    | Option.some dt =>
      match column_type sch true with
      | .error e => .error e
      | .ok ct =>
        if lowerStr dt = lowerStr ct then colsToReplace catalog rest
        else
          match column_clause n sch with
          | .error e => .error e
          | .ok cl =>
            match colsToReplace catalog rest with
            | .error e => .error e
            | .ok tl => .ok ((safe_column_name n, cl) :: tl)

/-- New name given to a versioned column by version_column (db_sync.py lines
463-470): the quote-stripped old name, an underscore, and the
strftime-to-the-minute timestamp ts, re-quoted. -/
def versionedName (column_name ts : String) : String :=
  "\"" ++ dropChar '"' column_name ++ "_" ++ ts ++ "\""

/-- The rename-then-add pairs issued by the replace loop of db_sync.py lines
453-455, in order. -/
def replActions (ts : String) : List (String × String) → List DdlAction
  | [] => []
  | (cn, cl) :: rest => .rename cn (versionedName cn ts) :: .add cl :: replActions ts rest

/-- The full DDL plan executed by update_columns (db_sync.py lines 424-455):
first every missing column is added, then each type-changed column is renamed
and re-added. ts stands for the strftime timestamp taken at version time. -/
def update_columns_plan (fs : List (String × JVal)) (catalog : List (String × String))
    (ts : String) : Except String (List DdlAction) :=
  match colsToAdd catalog fs with
  | .error e => .error e
  | .ok adds =>
    match colsToReplace catalog fs with
    | .error e => .error e
    | .ok reps => .ok (adds.map DdlAction.add ++ replActions ts reps)

/- Helper lemmas ---------------------------------------------------------- -/

theorem strAppend_empty (a : String) : a ++ "" = a := by
  cases a with
  | mk data => show String.mk (data ++ []) = String.mk data; rw [List.append_nil]

theorem jLookup_any (key : String) (v : JVal) :
    ∀ kvs : List (String × JVal), jLookup key kvs = Option.some v →
      (kvs.any (fun kv => kv.1 == key)) = true := by
  intro kvs h
  induction kvs with
  | nil => simp [jLookup] at h
  | cons kv rest ih =>
    rw [jLookup] at h
    by_cases hk : kv.1 = key
    · simp [List.any_cons, hk]
    · rw [if_neg (by simpa using hk)] at h
      simp [List.any_cons, ih h]

/- Claim C1 --------------------------------------------------------------- -/

/-- C1: with no key properties configured, a load of N staged records reports
inserted = N and updated = 0 with the batch size passed through, appends every
staged row to the permanent table, and the SQL it runs is the straight
INSERT-SELECT of insert_from_temp_table. -/
theorem claim_c1_keyless_load (α : Type) (pk : α → String) (records perm : List α)
    (size_bytes : Nat) (cols : List String) (table temp_table : String) :
    (load_csv_run [] pk records perm size_bytes).1
        = ⟨records.length, 0, size_bytes⟩
    ∧ (load_csv_run [] pk records perm size_bytes).2 = perm ++ records
    ∧ insert_from_temp_table [] cols table temp_table
        = "INSERT INTO " ++ table ++ " (" ++ pyJoin ", " cols ++ ") (SELECT s.* FROM "
          ++ temp_table ++ " s)\n                    " :=
  ⟨rfl, rfl, rfl⟩

/- Claim C2 --------------------------------------------------------------- -/

/-- C2 counterexample: for a stream configuring the key property id, the
staging-table CREATE statement does contain a PRIMARY KEY constraint,
contradicting the claim that the staging table never carries one. -/
theorem claim_c2_counterexample :
    create_table_query [("id", JVal.obj [("type", JVal.arr [JVal.str "integer"])])]
        ["id"] "tmp_u" true false
      = .ok ("CREATE TEMPORARY TABLE IF NOT EXISTS tmp_u "
          ++ "(\"id\" int, PRIMARY KEY (\"id\")) ON COMMIT PRESERVE ROWS")
    ∧ strContains ("CREATE TEMPORARY TABLE IF NOT EXISTS tmp_u "
          ++ "(\"id\" int, PRIMARY KEY (\"id\")) ON COMMIT PRESERVE ROWS")
        "PRIMARY KEY" = true :=
  ⟨rfl, rfl⟩

/-- C2 amended: the staging table gets the generated name tmp_<uuid> and its
CREATE statement carries exactly the permanent table's column clauses; it
carries the same primary-key clause as the permanent table whenever key
properties are configured, omitting it only for a keyless stream. -/
theorem claim_c2_staging_table_ddl (fs : List (String × JVal)) (keys : List String)
    (t1 t2 schema stream uuid : String) (cls : List String)
    (h : columnClauses fs = .ok cls) :
    create_table_query fs keys t1 true false
      = .ok ("CREATE TEMPORARY TABLE IF NOT EXISTS " ++ t1 ++ " ("
          ++ pyJoin ", " (cls ++ (if 0 < keys.length then
               ["PRIMARY KEY (" ++ pyJoin ", " (primary_column_names keys) ++ ")"] else []))
          ++ ")" ++ " ON COMMIT PRESERVE ROWS")
    ∧ create_table_query fs keys t2 false false
      = .ok ("CREATE TABLE IF NOT EXISTS " ++ t2 ++ " ("
          ++ pyJoin ", " (cls ++ (if 0 < keys.length then
               ["PRIMARY KEY (" ++ pyJoin ", " (primary_column_names keys) ++ ")"] else []))
          ++ ")")
    ∧ table_name schema stream uuid true false = "tmp_" ++ mapChar '-' '_' uuid := by
  refine ⟨?_, ?_, rfl⟩
  · unfold create_table_query
    rw [h]
    rfl
  · unfold create_table_query
    rw [h]
    exact congrArg Except.ok (strAppend_empty _)

/-- C2 amended witness at a concrete one-column schema with one key property. -/
theorem claim_c2_staging_table_ddl_witness :
    create_table_query [("id", JVal.obj [("type", JVal.arr [JVal.str "integer"])])]
        ["id"] "tmp_w" true false
      = .ok ("CREATE TEMPORARY TABLE IF NOT EXISTS tmp_w ("
          ++ pyJoin ", " (["\"id\" int"] ++ ["PRIMARY KEY (" ++ pyJoin ", "
              (primary_column_names ["id"]) ++ ")"])
          ++ ")" ++ " ON COMMIT PRESERVE ROWS") := by
  have h := claim_c2_staging_table_ddl
    [("id", JVal.obj [("type", JVal.arr [JVal.str "integer"])])] ["id"]
    "tmp_w" "t2" "schema" "stream" "u" ["\"id\" int"] rfl
  exact h.1

/- Claim C3 --------------------------------------------------------------- -/

/-- C3 counterexample: an integer-only leaf whose maximum exceeds
9223372036854775807 falls through every sized-integer branch, leaving the
initial varchar column type rather than the general integer type int. -/
theorem claim_c3_counterexample :
    column_type (JVal.obj [("type", JVal.arr [JVal.str "integer"]),
        ("maximum", JVal.int 9223372036854775808)]) true = .ok "varchar(80)"
    ∧ "varchar(80)" ≠ "int" :=
  ⟨rfl, by decide⟩

/-- C3 amended: for an integer-only leaf (type containing integer but none of
object, array, number, string, and carrying neither format nor maxLength) with
a numeric maximum, column_type sizes the integer by maximum: smallint up to
32767, int up to 2147483647, bigint up to 9223372036854775807, and the default
varchar(80) beyond that. -/
theorem claim_c3_integer_sizing (kvs : List (String × JVal)) (tv : JVal) (m : Int)
    (hty : jLookup "type" kvs = Option.some tv)
    (hml : jLookup "maxLength" kvs = Option.none)
    (hfmt : jLookup "format" kvs = Option.none)
    (hmax : jLookup "maximum" kvs = Option.some (JVal.int m))
    (hobj : pyIn "object" tv = .ok false)
    (harr : pyIn "array" tv = .ok false)
    (hnum : pyIn "number" tv = .ok false)
    (hint : pyIn "integer" tv = .ok true)
    (hstr : pyIn "string" tv = .ok false) :
    column_type (JVal.obj kvs) true
      = .ok (if m ≤ 32767 then "smallint"
             else if m ≤ 2147483647 then "int"
             else if m ≤ 9223372036854775807 then "bigint"
             else "varchar(80)") := by
  rw [column_type, hty, hml, hfmt, hmax]
  simp only [pyOr, hobj, harr, hnum, hint, hstr, Bool.false_eq_true, if_false]
  split_ifs <;> first | rfl | omega

/-- C3 amended witness: an integer leaf with maximum 40000 maps to int. -/
theorem claim_c3_integer_sizing_witness :
    column_type (JVal.obj [("type", JVal.arr [JVal.str "integer"]),
        ("maximum", JVal.int 40000)]) true = .ok "int" := by
  have h := claim_c3_integer_sizing
    [("type", JVal.arr [JVal.str "integer"]), ("maximum", JVal.int 40000)]
    (JVal.arr [JVal.str "integer"]) 40000 rfl rfl rfl rfl rfl rfl rfl rfl rfl
  rw [h]
  rfl

/- Claim C9 --------------------------------------------------------------- -/

/-- C9: splitting the stream name on the separator, one part leaves only the
table name equal to the input, two parts set schema and table, and three or
more set catalog to the first part, schema to the second and the table name to
the remaining parts joined by underscores, as on db-schema-my-table. -/
theorem claim_c9_stream_name_to_dict (name sep : String) (hsep : sep ≠ "") :
    ((pySplit name sep).length = 1 →
        stream_name_to_dict name sep = ⟨Option.none, Option.none, name⟩)
    ∧ (∀ a b, pySplit name sep = [a, b] →
        stream_name_to_dict name sep = ⟨Option.none, Option.some a, b⟩)
    ∧ (∀ a b c rest, pySplit name sep = a :: b :: c :: rest →
        stream_name_to_dict name sep
          = ⟨Option.some a, Option.some b, pyJoin "_" (c :: rest)⟩)
    ∧ stream_name_to_dict "db-schema-my-table" "-"
        = ⟨Option.some "db", Option.some "schema", "my_table"⟩ := by
  refine ⟨?_, ?_, ?_, rfl⟩
  · intro hlen
    unfold stream_name_to_dict
    cases hs : pySplit name sep with
    | nil => rfl
    | cons a t =>
      cases t with
      | nil => rfl
      | cons b t2 =>
        rw [hs] at hlen
        cases t2 <;> simp at hlen
  · intro a b hs
    unfold stream_name_to_dict
    rw [hs]
  · intro a b c rest hs
    unfold stream_name_to_dict
    rw [hs]

/-- C9 witness at the three-part example from the specification. -/
theorem claim_c9_stream_name_to_dict_witness :
    stream_name_to_dict "db-schema-my-table" "-"
      = ⟨Option.some "db", Option.some "schema", "my_table"⟩ :=
  (claim_c9_stream_name_to_dict "db-schema-my-table" "-" (by decide)).2.2.2

/- Claim C6 --------------------------------------------------------------- -/

/-- C6: the bulk-load encoder renders a present numeric zero or boolean false
as its JSON literal, while a missing column, a None, an empty string or an
empty composite renders as an empty field; in particular flattening the record
count = 0 yields the line 0 while the empty record yields an empty field. -/
theorem claim_c6_zero_vs_missing :
    (∀ flat name, plookup name flat = Option.some (PyVal.int 0) → renderField flat name = "0")
    ∧ (∀ flat name, plookup name flat = Option.some (PyVal.bool false) →
        renderField flat name = "false")
    ∧ (∀ flat name, plookup name flat = Option.none → renderField flat name = "")
    ∧ (∀ flat name, plookup name flat = Option.some PyVal.none → renderField flat name = "")
    ∧ (∀ flat name, plookup name flat = Option.some (PyVal.str "") → renderField flat name = "")
    ∧ (∀ flat name, plookup name flat = Option.some (PyVal.list []) → renderField flat name = "")
    ∧ (∀ flat name, plookup name flat = Option.some (PyVal.dict []) → renderField flat name = "")
    ∧ record_to_csv_line
        [("count", JVal.obj [("type", JVal.arr [JVal.str "null", JVal.str "integer"])])]
        "__" 0 [("count", PyVal.int 0)] = .ok "0"
    ∧ record_to_csv_line
        [("count", JVal.obj [("type", JVal.arr [JVal.str "null", JVal.str "integer"])])]
        "__" 0 [] = .ok "" := by
  refine ⟨?_, ?_, ?_, ?_, ?_, ?_, ?_, rfl, rfl⟩ <;>
    (intro flat name h; unfold renderField; rw [h]; all_goals rfl)

/-- C6 witness at a present zero and at an absent key. -/
theorem claim_c6_zero_vs_missing_witness :
    renderField [("count", PyVal.int 0)] "count" = "0"
    ∧ renderField [("x", PyVal.int 1)] "count" = "" :=
  ⟨claim_c6_zero_vs_missing.1 _ _ rfl, claim_c6_zero_vs_missing.2.2.1 _ _ rfl⟩

/- Claim C8 --------------------------------------------------------------- -/

/-- A missing key property makes the key-value comprehension raise the KeyError
of its first absent key. -/
theorem getKeyVals_error_of_missing (flat : List (String × PyVal)) (keys : List String)
    (p : String) (hp : p ∈ keys) (hm : plookup p flat = Option.none) :
    ∃ q, q ∈ keys ∧ plookup q flat = Option.none
      ∧ getKeyVals flat keys = .error ("KeyError: " ++ q) := by
  induction keys with
  | nil => cases hp
  | cons a rest ih =>
    cases haf : plookup a flat with
    | none => exact ⟨a, List.mem_cons_self a rest, haf, by simp [getKeyVals, haf]⟩
    | some v =>
      have hpr : p ∈ rest := by
        rcases List.mem_cons.mp hp with h1 | h1
        · subst h1; rw [haf] at hm; cases hm
        · exact h1
      obtain ⟨q, hq1, hq2, hq3⟩ := ih hpr
      exact ⟨q, List.mem_cons_of_mem _ hq1, hq2, by simp [getKeyVals, haf, hq3]⟩

/-- C8: with no key properties the primary-key string is the None marker; with
key properties configured, a flattened record missing one of them makes
record_primary_key_string propagate a KeyError naming a missing key property,
never skipping the record silently. -/
theorem claim_c8_missing_pk_raises :
    (∀ fs sep ml record, record_primary_key_string [] fs sep ml record = .ok Option.none)
    ∧ (∀ (keys : List String) fs sep ml record flat p,
        flatten_record (Option.some fs) sep ml record [] = .ok flat →
        p ∈ keys → plookup p flat = Option.none →
        ∃ q, q ∈ keys ∧ plookup q flat = Option.none ∧
          record_primary_key_string keys fs sep ml record = .error ("KeyError: " ++ q)) := by
  constructor
  · intro fs sep ml record; rfl
  · intro keys fs sep ml record flat p hfr hp hm
    obtain ⟨q, hq1, hq2, hq3⟩ := getKeyVals_error_of_missing flat keys p hp hm
    refine ⟨q, hq1, hq2, ?_⟩
    have hlen : ¬ keys.length = 0 := by
      cases keys
      · cases hp
      · simp
    unfold record_primary_key_string
    rw [if_neg hlen, hfr]
    simp [hq3]

/-- C8 witness: a keyless stream returns the None marker, and a record missing
its configured id key property raises KeyError id. -/
theorem claim_c8_missing_pk_raises_witness :
    record_primary_key_string [] [] "__" 0 [] = .ok Option.none
    ∧ record_primary_key_string ["id"]
        [("id", JVal.obj [("type", JVal.arr [JVal.str "integer"])])] "__" 0
        [("other", PyVal.int 1)] = .error ("KeyError: " ++ "id") := by
  constructor
  · exact claim_c8_missing_pk_raises.1 [] "__" 0 []
  · obtain ⟨q, hq1, hq2, hq3⟩ := claim_c8_missing_pk_raises.2 ["id"]
      [("id", JVal.obj [("type", JVal.arr [JVal.str "integer"])])] "__" 0
      [("other", PyVal.int 1)] [("other", PyVal.int 1)] "id" rfl
      (List.mem_singleton.mpr rfl) rfl
    have hq : q = "id" := List.mem_singleton.mp hq1
    rw [hq] at hq3
    exact hq3

/- Claim C10 -------------------------------------------------------------- -/

/-- Behaviour of one flatten_schema property without a type key, at one fuel
level: no alternatives drop the property; a first alternative typed by a string
emits the nullable-widened column exactly for string, array and object; a first
alternative whose type is not a string drops the property without error. -/
theorem gatherStep_union (sep : String) (cr : Bool)
    (recurse : List (String × JVal) → List String → Except String (List (String × JVal)))
    (parent : List String) (k : String) :
    gatherStep sep cr recurse [(k, JVal.obj [])] parent = .ok []
    ∧ (∀ vkvs alt0kvs arest (t : String),
        jLookup "type" vkvs = Option.none →
        (vkvs.map Prod.snd).head? = Option.some (JVal.arr (JVal.obj alt0kvs :: arest)) →
        jLookup "type" alt0kvs = Option.some (JVal.str t) →
        gatherStep sep cr recurse [(k, JVal.obj vkvs)] parent
          = (if t = "string" ∨ t = "array" ∨ t = "object" then
               .ok [(flatten_key k parent sep,
                     JVal.obj (setKey "type" (JVal.arr [JVal.null, JVal.str t]) alt0kvs))]
             else .ok []))
    ∧ (∀ vkvs alt0kvs arest tv0,
        jLookup "type" vkvs = Option.none →
        (vkvs.map Prod.snd).head? = Option.some (JVal.arr (JVal.obj alt0kvs :: arest)) →
        jLookup "type" alt0kvs = Option.some tv0 →
        (∀ t : String, ¬ tv0 = JVal.str t) →
        gatherStep sep cr recurse [(k, JVal.obj vkvs)] parent = .ok []) := by
  refine ⟨rfl, ?_, ?_⟩
  · intro vkvs alt0kvs arest t hty hhead htyp0
    simp only [gatherStep, hty, hhead, htyp0, jvalEqStr]
    by_cases h1 : t = "string"
    · simp [h1]
    · by_cases h2 : t = "array"
      · simp [h1, h2]
      · by_cases h3 : t = "object"
        · simp [h1, h2, h3]
        · simp [h1, h2, h3]
  · intro vkvs alt0kvs arest tv0 hty hhead htyp0 hns
    simp only [gatherStep, hty, hhead, htyp0]
    cases tv0 with
    | str s => exact absurd rfl (hns s)
    | null => rfl
    | bool b => rfl
    | int n => rfl
    | arr xs => rfl
    | obj kvs => rfl

/-- C10: a schema property with no type key emits a column only when its first
alternative's type is exactly string, array or object, widened to the nullable
union; any other first-alternative type, and a property with no alternatives at
all, is silently omitted with no column and no error. -/
theorem claim_c10_union_alternatives (sep : String) (fuel : Nat) (parent : List String)
    (k : String) :
    gather sep fuel [(k, JVal.obj [])] parent = .ok []
    ∧ (∀ vkvs alt0kvs arest (t : String),
        jLookup "type" vkvs = Option.none →
        (vkvs.map Prod.snd).head? = Option.some (JVal.arr (JVal.obj alt0kvs :: arest)) →
        jLookup "type" alt0kvs = Option.some (JVal.str t) →
        gather sep fuel [(k, JVal.obj vkvs)] parent
          = (if t = "string" ∨ t = "array" ∨ t = "object" then
               .ok [(flatten_key k parent sep,
                     JVal.obj (setKey "type" (JVal.arr [JVal.null, JVal.str t]) alt0kvs))]
             else .ok []))
    ∧ (∀ vkvs alt0kvs arest tv0,
        jLookup "type" vkvs = Option.none →
        (vkvs.map Prod.snd).head? = Option.some (JVal.arr (JVal.obj alt0kvs :: arest)) →
        jLookup "type" alt0kvs = Option.some tv0 →
        (∀ t : String, ¬ tv0 = JVal.str t) →
        gather sep fuel [(k, JVal.obj vkvs)] parent = .ok []) := by
  cases fuel with
  | zero => exact gatherStep_union sep false _ parent k
  | succ f => exact gatherStep_union sep true _ parent k

/-- C10 witness: a union property whose first alternative is string-typed emits
the widened column; one whose first alternative is integer-typed is omitted. -/
theorem claim_c10_union_alternatives_witness :
    gather "__" 0 [("k", JVal.obj [("anyOf", JVal.arr [JVal.obj [("type", JVal.str "string")]])])] []
      = .ok [("k", JVal.obj [("type", JVal.arr [JVal.null, JVal.str "string"])])]
    ∧ gather "__" 0
        [("k", JVal.obj [("anyOf", JVal.arr [JVal.obj [("type", JVal.str "integer")]])])] []
      = .ok [] := by
  constructor
  · have h := (claim_c10_union_alternatives "__" 0 [] "k").2.1
      [("anyOf", JVal.arr [JVal.obj [("type", JVal.str "string")]])]
      [("type", JVal.str "string")] [] "string" rfl rfl rfl
    rw [h, if_pos (Or.inl rfl)]
    rfl
  · have h := (claim_c10_union_alternatives "__" 0 [] "k").2.1
      [("anyOf", JVal.arr [JVal.obj [("type", JVal.str "integer")]])]
      [("type", JVal.str "integer")] [] "integer" rfl rfl rfl
    rw [h, if_neg (by simp)]

/- Claim C7 --------------------------------------------------------------- -/

/-- Characterization of the flatten_key while loop: from a prefix of already
reduced segments, the loop reduces some further prefix of length i, every
intermediate stage before the last was at or above the 63-character ceiling,
and it stops once the join fits below 63 or all segments are exhausted. -/
theorem reduceLoop_spec (sep : String) :
    ∀ (todo pre : List String),
      ∃ i, i ≤ todo.length
        ∧ reduceLoop sep (pre.map reduceSegment) todo
            = (pre ++ todo.take i).map reduceSegment ++ todo.drop i
        ∧ (∀ j, j < i →
            63 ≤ (pyJoin sep ((pre ++ todo.take j).map reduceSegment ++ todo.drop j)).length)
        ∧ (i = todo.length
           ∨ (pyJoin sep ((pre ++ todo.take i).map reduceSegment ++ todo.drop i)).length < 63) := by
  intro todo
  induction todo with
  | nil =>
    intro pre
    refine ⟨0, Nat.le_refl 0, ?_, ?_, Or.inl rfl⟩
    · simp [reduceLoop]
    · intro j hj; omega
  | cons kk rest ih =>
    intro pre
    by_cases hc : 63 ≤ (pyJoin sep (pre.map reduceSegment ++ kk :: rest)).length
    · obtain ⟨i, hle, heq, hcond, hstop⟩ := ih (pre ++ [kk])
      refine ⟨i + 1, by simpa using Nat.succ_le_succ hle, ?_, ?_, ?_⟩
      · rw [reduceLoop, if_pos hc]
        have h1 : pre.map reduceSegment ++ [reduceSegment kk]
            = (pre ++ [kk]).map reduceSegment := by simp
        rw [h1, heq]
        simp [List.take_succ_cons, List.drop_succ_cons, List.append_assoc]
      · intro j hj
        cases j with
        | zero => simpa using hc
        | succ j' =>
          have hh := hcond j' (by omega)
          simpa [List.take_succ_cons, List.drop_succ_cons, List.append_assoc] using hh
      · rcases hstop with h | h
        · left; simp [h]
        · right
          simpa [List.take_succ_cons, List.drop_succ_cons, List.append_assoc] using h
    · refine ⟨0, Nat.zero_le _, ?_, ?_, Or.inr ?_⟩
      · rw [reduceLoop, if_neg hc]; simp
      · intro j hj; omega
      · have hlt := Nat.lt_of_not_le hc
        simpa using hlt

/-- C7: flatten_key returns the plain separator join when it is below the
63-character ceiling; otherwise it replaces segments by reduceSegment from the
outermost inward, every stage before the last still at or above the ceiling,
stopping as soon as the join fits or all segments are exhausted. -/
theorem claim_c7_flatten_key_reduction (k : String) (parent : List String) (sep : String) :
    ((pyJoin sep (parent ++ [k])).length < 63 →
        flatten_key k parent sep = pyJoin sep (parent ++ [k]))
    ∧ ∃ i, i ≤ (parent ++ [k]).length
        ∧ flatten_key k parent sep
            = pyJoin sep (((parent ++ [k]).take i).map reduceSegment ++ (parent ++ [k]).drop i)
        ∧ (∀ j, j < i → 63 ≤ (pyJoin sep (((parent ++ [k]).take j).map reduceSegment
              ++ (parent ++ [k]).drop j)).length)
        ∧ (i = (parent ++ [k]).length
           ∨ (pyJoin sep (((parent ++ [k]).take i).map reduceSegment
                ++ (parent ++ [k]).drop i)).length < 63) := by
  obtain ⟨i, hle, heq, hcond, hstop⟩ := reduceLoop_spec sep (parent ++ [k]) []
  simp only [List.map_nil, List.nil_append] at heq hcond hstop
  constructor
  · intro hlt
    cases Nat.eq_zero_or_pos i with
    | inl h0 =>
      subst h0
      unfold flatten_key
      rw [heq]
      simp
    | inr hpos =>
      exfalso
      have hh := hcond 0 hpos
      simp only [List.take_zero, List.map_nil, List.nil_append, List.drop_zero] at hh
      omega
  · exact ⟨i, hle, by unfold flatten_key; rw [heq], hcond, hstop⟩

/-- C7 witness: a short key is returned as the plain join. -/
theorem claim_c7_flatten_key_reduction_witness :
    flatten_key "abc" [] "__" = pyJoin "__" ([] ++ ["abc"]) :=
  (claim_c7_flatten_key_reduction "abc" [] "__").1 (by decide)

/- Claim C4 --------------------------------------------------------------- -/

theorem lexLe_total (a : List Char) : ∀ b, lexLe a b = true ∨ lexLe b a = true := by
  induction a with
  | nil => intro b; left; rfl
  | cons x xs ih =>
    intro b
    cases b with
    | nil => right; rfl
    | cons y ys =>
      rw [lexLe, lexLe]
      by_cases h1 : x.toNat < y.toNat
      · left; rw [if_pos h1]
      · by_cases h2 : y.toNat < x.toNat
        · right; rw [if_pos h2]
        · rw [if_neg h1, if_neg h2, if_neg h2, if_neg h1]
          exact ih ys

theorem lexLe_trans (a : List Char) : ∀ b c, lexLe a b = true → lexLe b c = true →
    lexLe a c = true := by
  induction a with
  | nil => intro b c _ _; rfl
  | cons x xs ih =>
    intro b c hab hbc
    cases b with
    | nil => simp [lexLe] at hab
    | cons y ys =>
      cases c with
      | nil => simp [lexLe] at hbc
      | cons z zs =>
        rw [lexLe] at hab hbc ⊢
        by_cases h1 : x.toNat < y.toNat
        · by_cases h2 : y.toNat < z.toNat
          · rw [if_pos (by omega)]
          · by_cases h3 : z.toNat < y.toNat
            · rw [if_neg (by omega), if_pos h3] at hbc; cases hbc
            · rw [if_pos (by omega)]
        · by_cases h1' : y.toNat < x.toNat
          · rw [if_neg h1, if_pos h1'] at hab; cases hab
          · rw [if_neg h1, if_neg h1'] at hab
            by_cases h2 : y.toNat < z.toNat
            · rw [if_pos (by omega)]
            · by_cases h3 : z.toNat < y.toNat
              · rw [if_neg h2, if_pos h3] at hbc; cases hbc
              · rw [if_neg h2, if_neg h3] at hbc
                rw [if_neg (by omega), if_neg (by omega)]
                exact ih ys zs hab hbc

theorem lexLe_antisymm (a : List Char) : ∀ b, lexLe a b = true → lexLe b a = true →
    a = b := by
  induction a with
  | nil =>
    intro b _ hba
    cases b with
    | nil => rfl
    | cons y ys => simp [lexLe] at hba
  | cons x xs ih =>
    intro b hab hba
    cases b with
    | nil => simp [lexLe] at hab
    | cons y ys =>
      rw [lexLe] at hab hba
      by_cases h1 : x.toNat < y.toNat
      · rw [if_neg (by omega), if_pos h1] at hba; cases hba
      · by_cases h2 : y.toNat < x.toNat
        · rw [if_neg h1, if_pos h2] at hab; cases hab
        · rw [if_neg h1, if_neg h2] at hab
          rw [if_neg h2, if_neg h1] at hba
          have hx : x = y := Char.ext (UInt32.ext (show x.toNat = y.toNat by omega))
          rw [hx, ih ys hab hba]

theorem keyLe_total (x y : String × JVal) : keyLe x y = true ∨ keyLe y x = true :=
  lexLe_total _ _

theorem keyLe_trans (x y z : String × JVal) (hxy : keyLe x y = true)
    (hyz : keyLe y z = true) : keyLe x z = true :=
  lexLe_trans _ _ _ hxy hyz

theorem keyLe_fst_eq (x y : String × JVal) (hxy : keyLe x y = true)
    (hyx : keyLe y x = true) : x.1 = y.1 := by
  have h := lexLe_antisymm _ _ hxy hyx
  exact congrArg String.mk h

theorem insertSorted_perm (x : String × JVal) (l : List (String × JVal)) :
    List.Perm (insertSorted x l) (x :: l) := by
  induction l with
  | nil => exact List.Perm.refl _
  | cons y ys ih =>
    rw [insertSorted]
    by_cases h : keyLe x y = true
    · rw [if_pos h]
    · rw [if_neg h]
      exact List.Perm.trans (List.Perm.cons y ih) (List.Perm.swap x y ys)

theorem sortItems_perm (l : List (String × JVal)) : List.Perm (sortItems l) l := by
  induction l with
  | nil => exact List.Perm.refl _
  | cons x xs ih =>
    rw [sortItems]
    exact List.Perm.trans (insertSorted_perm x (sortItems xs)) (List.Perm.cons x ih)

theorem insertSorted_pairwise (x : String × JVal) (l : List (String × JVal))
    (h : l.Pairwise (fun a b => keyLe a b = true)) :
    (insertSorted x l).Pairwise (fun a b => keyLe a b = true) := by
  induction l with
  | nil => exact List.pairwise_singleton _ x
  | cons y ys ih =>
    rcases List.pairwise_cons.mp h with ⟨hy, hys⟩
    rw [insertSorted]
    by_cases hxy : keyLe x y = true
    · rw [if_pos hxy]
      refine List.pairwise_cons.mpr ⟨?_, h⟩
      intro z hz
      rcases List.mem_cons.mp hz with h1 | h1
      · rw [h1]; exact hxy
      · exact keyLe_trans x y z hxy (hy z h1)
    · rw [if_neg hxy]
      refine List.pairwise_cons.mpr ⟨?_, ih hys⟩
      intro z hz
      have hz' : z ∈ x :: ys := (insertSorted_perm x ys).mem_iff.mp hz
      rcases List.mem_cons.mp hz' with h1 | h1
      · rw [h1]
        rcases keyLe_total x y with h2 | h2
        · exact absurd h2 hxy
        · exact h2
      · exact hy z h1

theorem sortItems_pairwise (l : List (String × JVal)) :
    (sortItems l).Pairwise (fun a b => keyLe a b = true) := by
  induction l with
  | nil => exact List.Pairwise.nil
  | cons x xs ih => exact insertSorted_pairwise x (sortItems xs) ih

/-- The duplicate found by findDup really occurs at least twice among the flat
names. -/
theorem findDup_count (l : List (String × JVal)) (k : String)
    (h : findDup l = Option.some k) : 2 ≤ (l.map Prod.fst).count k := by
  induction l with
  | nil => simp [findDup] at h
  | cons a tail ih =>
    cases tail with
    | nil => simp [findDup] at h
    | cons b t =>
      rw [findDup] at h
      by_cases h1 : a.1 = b.1
      · rw [if_pos h1] at h
        have hk : a.1 = k := Option.some.inj h
        simp only [List.map_cons, List.count_cons]
        rw [← hk, ← h1]
        simp
      · rw [if_neg h1] at h
        have := ih h
        simp only [List.map_cons, List.count_cons] at this ⊢
        omega

/-- On a key-sorted item list with a duplicated flat name, the groupby scan
finds a duplicate. -/
theorem findDup_of_pairwise_dup (l : List (String × JVal))
    (hp : l.Pairwise (fun a b => keyLe a b = true))
    (hnd : ¬ (l.map Prod.fst).Nodup) : ∃ k, findDup l = Option.some k := by
  induction l with
  | nil => simp at hnd
  | cons a tail ih =>
    rcases List.pairwise_cons.mp hp with ⟨ha, hp'⟩
    cases tail with
    | nil => simp at hnd
    | cons b t =>
      by_cases h1 : a.1 = b.1
      · exact ⟨a.1, by rw [findDup, if_pos h1]⟩
      · have hnotmem : a.1 ∉ (b :: t).map Prod.fst := by
          intro hmem
          rcases List.mem_map.mp hmem with ⟨c, hc1, hc2⟩
          rcases List.mem_cons.mp hc1 with h2 | h2
          · rw [h2] at hc2; exact h1 hc2.symm
          · rcases List.pairwise_cons.mp hp' with ⟨hb, _⟩
            have hab : keyLe a b = true := ha b (List.mem_cons_self b t)
            have hbc' : lexLe b.1.data c.1.data = true := hb c h2
            rw [hc2] at hbc'
            have hba : keyLe b a = true := hbc'
            exact h1 (keyLe_fst_eq a b hab hba)
        have hnd' : ¬ ((b :: t).map Prod.fst).Nodup := by
          intro hok
          exact hnd (List.nodup_cons.mpr ⟨hnotmem, hok⟩)
        obtain ⟨k, hk⟩ := ih hp' hnd'
        exact ⟨k, by rw [findDup, if_neg h1]; exact hk⟩

/-- A duplicated flat name makes sortAndCheck raise, naming a duplicated
column. -/
theorem sortAndCheck_error_of_dup (items : List (String × JVal))
    (hnd : ¬ (items.map Prod.fst).Nodup) :
    ∃ k, 2 ≤ (items.map Prod.fst).count k
      ∧ sortAndCheck items = .error ("Duplicate column name produced in schema: " ++ k) := by
  have hperm := sortItems_perm items
  have hmap := hperm.map Prod.fst
  have hnd' : ¬ ((sortItems items).map Prod.fst).Nodup := fun h => hnd (hmap.nodup_iff.mp h)
  obtain ⟨k, hk⟩ := findDup_of_pairwise_dup (sortItems items) (sortItems_pairwise items) hnd'
  have hc := findDup_count (sortItems items) k hk
  refine ⟨k, ?_, ?_⟩
  · rw [← hmap.count_eq]
    exact hc
  · rw [sortAndCheck, hk]

/-- C4: whenever the gathered flattened items carry two entries with the same
flat column name, flatten_schema raises the fatal duplicate-column error naming
a flat name that occurs at least twice; it never silently merges the entries. -/
theorem claim_c4_duplicate_names_raise (sep : String) (fuel : Nat)
    (kvs props : List (String × JVal)) (items : List (String × JVal))
    (hp : jLookup "properties" kvs = Option.some (JVal.obj props))
    (hg : gather sep fuel props [] = .ok items)
    (hnd : ¬ (items.map Prod.fst).Nodup) :
    ∃ k, 2 ≤ (items.map Prod.fst).count k
      ∧ flatten_schema sep fuel (JVal.obj kvs)
          = .error ("Duplicate column name produced in schema: " ++ k) := by
  obtain ⟨k, hcount, herr⟩ := sortAndCheck_error_of_dup items hnd
  refine ⟨k, hcount, ?_⟩
  have hany := jLookup_any "properties" (JVal.obj props) kvs hp
  unfold flatten_schema
  simp only [pyIn, hany, hp, hg, herr]

/-- C4 witness: two distinct 63- and 64-character property names both reduce to
the flat name aaa under the identifier-length ceiling, and flatten_schema
raises the duplicate-column error naming it. -/
theorem claim_c4_duplicate_names_raise_witness :
    ∃ k, 2 ≤ (([("aaa", JVal.obj [("type", JVal.arr [JVal.str "integer"])]),
          ("aaa", JVal.obj [("type", JVal.arr [JVal.str "integer"])])]
            : List (String × JVal)).map Prod.fst).count k
      ∧ flatten_schema "__" 0 (JVal.obj [("properties", JVal.obj
          [(String.mk (List.replicate 63 'a'),
            JVal.obj [("type", JVal.arr [JVal.str "integer"])]),
           (String.mk (List.replicate 64 'a'),
            JVal.obj [("type", JVal.arr [JVal.str "integer"])])])])
          = .error ("Duplicate column name produced in schema: " ++ k) :=
  claim_c4_duplicate_names_raise "__" 0
    [("properties", JVal.obj
        [(String.mk (List.replicate 63 'a'),
          JVal.obj [("type", JVal.arr [JVal.str "integer"])]),
         (String.mk (List.replicate 64 'a'),
          JVal.obj [("type", JVal.arr [JVal.str "integer"])])])]
    [(String.mk (List.replicate 63 'a'), JVal.obj [("type", JVal.arr [JVal.str "integer"])]),
     (String.mk (List.replicate 64 'a'), JVal.obj [("type", JVal.arr [JVal.str "integer"])])]
    [("aaa", JVal.obj [("type", JVal.arr [JVal.str "integer"])]),
     ("aaa", JVal.obj [("type", JVal.arr [JVal.str "integer"])])]
    rfl rfl (by decide)

/- Claim C5 --------------------------------------------------------------- -/

/-- Every flattened column found in the catalog with a case-insensitively
different type contributes its quoted name and new clause to
columns_to_replace. -/
theorem colsToReplace_mem (catalog : List (String × String)) :
    ∀ (fs : List (String × JVal)) (reps : List (String × String)) (n : String) (sch : JVal)
      (dt ct : String),
      colsToReplace catalog fs = .ok reps →
      (n, sch) ∈ fs →
      catLookup catalog (lowerStr n) = Option.some dt →
      column_type sch true = .ok ct →
      ¬ lowerStr dt = lowerStr ct →
      (safe_column_name n, safe_column_name n ++ " " ++ ct) ∈ reps := by
  intro fs
  induction fs with
  | nil => intro reps n sch dt ct _ hmem; cases hmem
  | cons hd rest ih =>
    intro reps n sch dt ct hrep hmem hcat hct hne
    obtain ⟨hn, hsch⟩ := hd
    simp only [colsToReplace] at hrep
    rcases List.mem_cons.mp hmem with heq | hmem'
    · rw [Prod.mk.injEq] at heq
      obtain ⟨h1, h2⟩ := heq
      subst h1
      subst h2
      have hcl : column_clause n sch = .ok (safe_column_name n ++ " " ++ ct) := by
        rw [column_clause, hct]
      simp only [hcat, hct, hcl] at hrep
      rw [if_neg hne] at hrep
      cases hrest : colsToReplace catalog rest with
      | error e => simp only [hrest] at hrep; cases hrep
      | ok tl =>
        simp only [hrest] at hrep
        have hr : (safe_column_name n, safe_column_name n ++ " " ++ ct) :: tl = reps :=
          Except.ok.inj hrep
        rw [← hr]
        exact List.mem_cons_self _ _
    · cases hc : catLookup catalog (lowerStr hn) with
      | none =>
        rw [hc] at hrep
        exact ih reps n sch dt ct hrep hmem' hcat hct hne
      | some dt0 =>
        simp only [hc] at hrep
        cases hcc : column_type hsch true with
        | error e => simp only [hcc] at hrep; cases hrep
        | ok ct0 =>
          simp only [hcc] at hrep
          by_cases hde : lowerStr dt0 = lowerStr ct0
          · rw [if_pos hde] at hrep
            exact ih reps n sch dt ct hrep hmem' hcat hct hne
          · rw [if_neg hde] at hrep
            cases hcl : column_clause hn hsch with
            | error e => simp only [hcl] at hrep; cases hrep
            | ok cl =>
              simp only [hcl] at hrep
              cases hrest : colsToReplace catalog rest with
              | error e => simp only [hrest] at hrep; cases hrep
              | ok tl =>
                simp only [hrest] at hrep
                have hr : (safe_column_name hn, cl) :: tl = reps := Except.ok.inj hrep
                rw [← hr]
                exact List.mem_cons_of_mem _ (ih tl n sch dt ct hrest hmem' hcat hct hne)

/-- Each replace pair contributes an adjacent rename-then-add action pair. -/
theorem replActions_decomp (ts : String) :
    ∀ (reps : List (String × String)) (p c : String), (p, c) ∈ reps →
      ∃ l1 l2, replActions ts reps
        = l1 ++ DdlAction.rename p (versionedName p ts) :: DdlAction.add c :: l2 := by
  intro reps
  induction reps with
  | nil => intro p c h; cases h
  | cons hd rest ih =>
    intro p c h
    obtain ⟨hp, hc⟩ := hd
    rcases List.mem_cons.mp h with heq | hmem
    · rw [Prod.mk.injEq] at heq
      obtain ⟨h1, h2⟩ := heq
      subst h1
      subst h2
      exact ⟨[], replActions ts rest, rfl⟩
    · obtain ⟨l1, l2, hl⟩ := ih p c hmem
      refine ⟨DdlAction.rename hp (versionedName hp ts) :: DdlAction.add hc :: l1, l2, ?_⟩
      rw [replActions, hl]
      rfl

/-- The replace loop issues only renames and adds. -/
theorem replActions_no_drop (ts : String) :
    ∀ reps, ∀ a ∈ replActions ts reps, ∀ c, ¬ a = DdlAction.drop c := by
  intro reps
  induction reps with
  | nil => intro a ha; cases ha
  | cons hd rest ih =>
    intro a ha c
    obtain ⟨hp, hc⟩ := hd
    rw [replActions] at ha
    rcases List.mem_cons.mp ha with h | h
    · rw [h]; intro hh; cases hh
    · rcases List.mem_cons.mp h with h2 | h2
      · rw [h2]; intro hh; cases hh
      · exact ih a h2 c

/-- C5: a column present in both the flattened schema and the catalog whose
reported type differs case-insensitively from the computed type is first
renamed to its timestamp-suffixed versioned name and immediately afterwards
re-added with the original quoted name and the new type, and the
reconciliation plan never drops any column. -/
theorem claim_c5_version_then_add (fs : List (String × JVal))
    (catalog : List (String × String)) (ts : String) (n : String) (sch : JVal)
    (dt ct : String) (acts : List DdlAction)
    (hmem : (n, sch) ∈ fs)
    (hcat : catLookup catalog (lowerStr n) = Option.some dt)
    (hct : column_type sch true = .ok ct)
    (hne : ¬ lowerStr dt = lowerStr ct)
    (hplan : update_columns_plan fs catalog ts = .ok acts) :
    (∃ l1 l2, acts = l1
        ++ DdlAction.rename (safe_column_name n) (versionedName (safe_column_name n) ts)
        :: DdlAction.add (safe_column_name n ++ " " ++ ct) :: l2)
    ∧ ∀ a ∈ acts, ∀ c, ¬ a = DdlAction.drop c := by
  rw [update_columns_plan] at hplan
  cases hadds : colsToAdd catalog fs with
  | error e => rw [hadds] at hplan; cases hplan
  | ok adds =>
    rw [hadds] at hplan
    cases hreps : colsToReplace catalog fs with
    | error e => rw [hreps] at hplan; cases hplan
    | ok reps =>
      rw [hreps] at hplan
      have hacts : acts = adds.map DdlAction.add ++ replActions ts reps :=
        (Except.ok.inj hplan).symm
      have hmm := colsToReplace_mem catalog fs reps n sch dt ct hreps hmem hcat hct hne
      obtain ⟨l1, l2, hl⟩ := replActions_decomp ts reps (safe_column_name n)
        (safe_column_name n ++ " " ++ ct) hmm
      constructor
      · exact ⟨adds.map DdlAction.add ++ l1, l2, by rw [hacts, hl, List.append_assoc]⟩
      · intro a ha c
        rw [hacts] at ha
        rcases List.mem_append.mp ha with h | h
        · rcases List.mem_map.mp h with ⟨x, _, hx⟩
          rw [← hx]; intro hh; cases hh
        · exact replActions_no_drop ts reps a h c

/-- C5 witness: a count column reported as varchar(80) while the schema now
computes int is renamed to its timestamped version and re-added, with no drop
in the plan. -/
theorem claim_c5_version_then_add_witness :
    (∃ l1 l2, ([DdlAction.rename "\"count\"" "\"count_20260101_0000\"",
        DdlAction.add "\"count\" int"] : List DdlAction)
      = l1 ++ DdlAction.rename (safe_column_name "count")
            (versionedName (safe_column_name "count") "20260101_0000")
        :: DdlAction.add (safe_column_name "count" ++ " " ++ "int") :: l2)
    ∧ ∀ a ∈ ([DdlAction.rename "\"count\"" "\"count_20260101_0000\"",
        DdlAction.add "\"count\" int"] : List DdlAction), ∀ c, ¬ a = DdlAction.drop c :=
  claim_c5_version_then_add
    [("count", JVal.obj [("type", JVal.arr [JVal.str "null", JVal.str "integer"])])]
    [("count", "varchar(80)")] "20260101_0000" "count"
    (JVal.obj [("type", JVal.arr [JVal.str "null", JVal.str "integer"])])
    "varchar(80)" "int" _ (List.mem_singleton.mpr rfl) rfl rfl (by decide) rfl
